import Mathlib

/-!
Shallow embedding of `src/services/verification/src/services/VerificationService.ts`
(the Verification Coordinator of the sourcify repository).

JavaScript objects used as string-keyed maps are embedded as association
lists `List (String × _)` (preserving the insertion/iteration order that
JS object key enumeration exposes); absent (`undefined`) values are
`Option.none`; thrown JS exceptions are the `Except.error` side of
`Except JsError _`.  External collaborators (the compiler-invocation
routine `useCompiler`, the JSON parser `JSON.parse`, the `Injector`
engine and the repository file store) are parameters of the embedded
operations, matching the spec's component boundaries.
-/

namespace Sourcify

/-- A JavaScript runtime error value: `thrown` is a `new Error(message)`
raised by the coordinator itself; `typeError` models a TypeError raised by
the runtime (e.g. reading a property of `undefined`); `badJson` models the
SyntaxError raised by `JSON.parse`; `foreign` is an opaque failure coming
from an external collaborator. -/
inductive JsError where
  | thrown (message : String)
  | typeError (message : String)
  | badJson (message : String)
  | foreign (tag : String)
deriving DecidableEq, Repr

/-- One entry of the compiler output's `errors` array. -/
structure Diagnostic where
  severity : String
  formattedMessage : String
deriving DecidableEq, Repr

/-- A compilation artifact for one contract; `metadata` is the optional
embedded metadata string (`none` = absent, `some ""` = present but empty). -/
structure Artifact where
  metadata : Option String
deriving DecidableEq, Repr

/-- The compiler output document: `contracts` maps a source-file path to a
map from contract name to artifact; `errors` is the diagnostics array.
Either top-level field may be absent. -/
structure CompilerOutput where
  contracts : Option (List (String × List (String × Artifact)))
  errors : Option (List Diagnostic)
deriving DecidableEq, Repr

/-- Modelled from the spec: the helper `findContractPathFromContractName`
(defined in `src/utils`, whose source is not in scope) searches the
compiler output's file-to-contract mapping for a file path whose contract
set contains the given contract name, returning the first such path in
iteration order, or nothing when no path (or no mapping) contains it. -/
def findContractPathFromContractName
    (contracts : Option (List (String × List (String × Artifact))))
    (contractName : String) : Option String :=
  match contracts with
  | none => none
  | some cs =>
    (cs.find? (fun pc => (pc.2.lookup contractName).isSome)).map (fun pc => pc.1)

/-- The chain `output.contracts[contractPath][contractName]`:
`none` whenever any step of the JS property chain is `undefined`. -/
def contractArtifact
    (contracts : Option (List (String × List (String × Artifact))))
    (contractPath contractName : String) : Option Artifact :=
  match contracts with
  | none => none
  | some cs =>
    match cs.lookup contractPath with
    | none => none
    | some m => m.lookup contractName

/-- `output.errors.filter(e => e.severity === "error").map(e => e.formattedMessage).join("\n")`. -/
def joinedErrorMessages (errs : List Diagnostic) : String :=
  String.intercalate "\n"
    ((errs.filter (fun e => e.severity == "error")).map (fun e => e.formattedMessage))

/-- The failure path of `getMetadataFromJsonInput` taken when the metadata
chain is falsy: reads `output.errors` (a TypeError when that field is
absent, since `.filter` is called on `undefined`) and throws
`Error("Compiler error:\n " + errorMessages)`. -/
def compilationErrorResult {J : Type} (output : CompilerOutput) : Except JsError J :=
  match output.errors with
  | none => Except.error (JsError.typeError "Cannot read properties of undefined")
  | some errs =>
    Except.error (JsError.thrown ("Compiler error:\n " ++ joinedErrorMessages errs))

/-- A character the ECMAScript `trim()` builtin strips (the whitespace
characters this model needs). -/
def jsWhitespace (c : Char) : Bool :=
  c == ' ' || c == '\t' || c == '\n' || c == '\r'

/-- The ECMAScript string builtin `s.trim()`: strip leading and trailing
whitespace. -/
def jsTrim (s : String) : String :=
  String.mk (((s.toList.dropWhile jsWhitespace).reverse.dropWhile jsWhitespace).reverse)

/-- The part of `getMetadataFromJsonInput` that runs on the compiler output
returned by `useCompiler`: locate the contract's path, check the truthiness
chain `output.contracts && output.contracts[p] && output.contracts[p][name]
&& ...metadata` (an empty metadata string is falsy), and on success return
`JSON.parse(metadata.trim())`.  `parseJson` embeds `JSON.parse`, returning
`none` where `JSON.parse` would throw a SyntaxError. -/
def getMetadataFromOutput {J : Type} (parseJson : String → Option J)
    (contractName : String) (output : CompilerOutput) : Except JsError J :=
  match findContractPathFromContractName output.contracts contractName with
  | none =>
    Except.error (JsError.thrown
      ("Contract " ++ contractName ++ " not found in compiler output"))
  | some contractPath =>
    match contractArtifact output.contracts contractPath contractName with
    | none => compilationErrorResult output
    | some artifact =>
      match artifact.metadata with
      | none => compilationErrorResult output
      | some metadata =>
        if metadata = "" then compilationErrorResult output
        else
          match parseJson (jsTrim metadata) with
          | none => Except.error (JsError.badJson "Unexpected token in JSON")
          | some json => Except.ok json

/-- `VerificationService.getMetadataFromJsonInput`: invoke the compiler
(`useCompiler`, an external collaborator passed as a parameter) and resolve
the target contract's metadata from its output.  A failure of `useCompiler`
itself is not caught: it propagates as-is. -/
def getMetadataFromJsonInput {JsonInput J : Type}
    (useCompiler : String → JsonInput → Except JsError CompilerOutput)
    (parseJson : String → Option J)
    (compilerVersion contractName : String) (compilerJson : JsonInput) :
    Except JsError J :=
  match useCompiler compilerVersion compilerJson with
  | Except.error e => Except.error e
  | Except.ok output => getMetadataFromOutput parseJson contractName output

/-- A structured log record emitted by the coordinator's logger; only the
fields the resilient-lookup diagnostics use are modelled. -/
structure LogEntry where
  loc : String
  address : String
  msg : String
deriving DecidableEq, Repr

/-- The repository file store collaborator (`IFileService`): a configured
repository root plus the two lookup operations, each of which may fail. -/
structure FileService (Match : Type) where
  repositoryPath : String
  findByAddress : String → String → Except JsError (List Match)
  findAllByAddress : String → String → Except JsError (List Match)

/-- `VerificationService.findByAddress`: delegate to the file store inside
a try/catch; a failure is swallowed, logged (with the address), and the
(initially empty) match list is returned.  The second component of the
result is the list of log records emitted. -/
def findByAddress {Match : Type} (fileService : FileService Match)
    (address chain : String) : List Match × List LogEntry :=
  match fileService.findByAddress address chain with
  | Except.ok ms => (ms, [])
  | Except.error _ =>
    ([], [{ loc := "[POST:VERIFICATION_BY_ADDRESS_FAILED]", address := address,
            msg := "Could not find file in repository" }])

/-- `VerificationService.findAllByAddress`: same resilient pattern as
`findByAddress`, delegating to the store's `findAllByAddress`. -/
def findAllByAddress {Match : Type} (fileService : FileService Match)
    (address chain : String) : List Match × List LogEntry :=
  match fileService.findAllByAddress address chain with
  | Except.ok ms => (ms, [])
  | Except.error _ =>
    ([], [{ loc := "[POST:VERIFICATION_BY_ADDRESS_FAILED]", address := address,
            msg := "Could not find file in repository" }])

/-- Value of a single character as a digit (ECMAScript `parseInt` digit
alphabet: 0-9, a-z, A-Z). -/
def digitVal (c : Char) : Option Nat :=
  if '0' ≤ c ∧ c ≤ '9' then some (c.toNat - '0'.toNat)
  else if 'a' ≤ c ∧ c ≤ 'z' then some (c.toNat - 'a'.toNat + 10)
  else if 'A' ≤ c ∧ c ≤ 'Z' then some (c.toNat - 'A'.toNat + 10)
  else none

/-- Longest prefix of digits below `radix`: accumulated value and number of
digits consumed. -/
def takeDigits (radix : Nat) : List Char → Nat → Nat → Nat × Nat
  | [], acc, cnt => (acc, cnt)
  | c :: rest, acc, cnt =>
    match digitVal c with
    | some d =>
      if d < radix then takeDigits radix rest (acc * radix + d) (cnt + 1)
      else (acc, cnt)
    | none => (acc, cnt)

/-- The ECMAScript builtin `parseInt(s)` with no radix argument: skip
leading whitespace, read an optional sign, switch to base 16 after a
`0x`/`0X` prefix, then read the longest digit prefix; `none` models `NaN`
(no digits consumed). -/
def jsParseInt (s : String) : Option Int :=
  let cs := s.toList.dropWhile (fun c => c == ' ' || c == '\t' || c == '\n' || c == '\r')
  let signed : Int × List Char :=
    match cs with
    | '-' :: rest => (-1, rest)
    | '+' :: rest => (1, rest)
    | _ => (1, cs)
  let based : Nat × List Char :=
    match signed.2 with
    | '0' :: 'x' :: rest => (16, rest)
    | '0' :: 'X' :: rest => (16, rest)
    | _ => (10, signed.2)
  let parsed := takeDigits based.1 based.2 0 0
  if parsed.2 = 0 then none else some (signed.1 * Int.ofNat parsed.1)

/-- `parseInt(process.env.WEB3_TIMEOUT || "") || undefined`: the
environment value (absent modelled as `none`) is defaulted to `""` when
falsy, parsed with `parseInt`, and the result is coerced to `undefined`
when falsy — which drops both `NaN` and the numeric value `0`. -/
def web3timeoutFromEnv (envValue : Option String) : Option Int :=
  match jsParseInt (envValue.getD "") with
  | none => none
  | some n => if n = 0 then none else some n

/-- The options bag passed to `Injector.createAsync` (the logger is not
modelled; it carries no data the claims observe). -/
structure InjectorConfig (Match : Type) where
  repositoryPath : String
  fileService : FileService Match
  web3timeout : Option Int

/-- The external verification engine instance (`Injector`), consumed
through its four operations; each may fail. -/
structure Injector (InjectorInput Match Contract ConstructorArgs Recompiled Bytecode : Type) where
  inject : InjectorInput → Except JsError Match
  verifyCreate2 : Contract → String → String → ConstructorArgs → String → Except JsError Match
  recompile : Contract → Except JsError Recompiled
  getBytecode : String → String → Except JsError Bytecode

/-- The mutable state of a `VerificationService` instance: the lazily
created engine (`this.injector`).  `constructions` is instrumentation
counting how many `Injector.createAsync` calls have completed, so the
theorems can speak about "no further construction". -/
structure VerificationService (InjectorInput Match Contract ConstructorArgs Recompiled Bytecode : Type) where
  injector : Option (Injector InjectorInput Match Contract ConstructorArgs Recompiled Bytecode)
  constructions : Nat

/-- The options object each delegated operation builds for
`Injector.createAsync` (identical literal in all four operations). -/
def injectorConfigOf {Match : Type} (fileService : FileService Match)
    (envWeb3Timeout : Option String) : InjectorConfig Match :=
  { repositoryPath := fileService.repositoryPath
    fileService := fileService
    web3timeout := web3timeoutFromEnv envWeb3Timeout }

section DelegatedOps

variable {InjectorInput Match Contract ConstructorArgs Recompiled Bytecode : Type}

/-- `VerificationService.inject` (sequential semantics): construct the
engine if `this.injector` is unset, then forward.  `createAsync` is the
external `Injector.createAsync`; the updated service state is returned
alongside the call's result. -/
def inject
    (createAsync : InjectorConfig Match →
      Except JsError (Injector InjectorInput Match Contract ConstructorArgs Recompiled Bytecode))
    (fileService : FileService Match) (envWeb3Timeout : Option String)
    (st : VerificationService InjectorInput Match Contract ConstructorArgs Recompiled Bytecode)
    (injectorInput : InjectorInput) :
    VerificationService InjectorInput Match Contract ConstructorArgs Recompiled Bytecode ×
      Except JsError Match :=
  match st.injector with
  | some injector => (st, injector.inject injectorInput)
  | none =>
    match createAsync (injectorConfigOf fileService envWeb3Timeout) with
    | Except.error e => (st, Except.error e)
    | Except.ok injector =>
      ({ injector := some injector, constructions := st.constructions + 1 },
        injector.inject injectorInput)

/-- `VerificationService.verifyCreate2`: same lazy-construction pattern,
forwarding all five arguments. -/
def verifyCreate2
    (createAsync : InjectorConfig Match →
      Except JsError (Injector InjectorInput Match Contract ConstructorArgs Recompiled Bytecode))
    (fileService : FileService Match) (envWeb3Timeout : Option String)
    (st : VerificationService InjectorInput Match Contract ConstructorArgs Recompiled Bytecode)
    (contract : Contract) (deployerAddress salt : String)
    (constructorArgs : ConstructorArgs) (create2Address : String) :
    VerificationService InjectorInput Match Contract ConstructorArgs Recompiled Bytecode ×
      Except JsError Match :=
  match st.injector with
  | some injector =>
    (st, injector.verifyCreate2 contract deployerAddress salt constructorArgs create2Address)
  | none =>
    match createAsync (injectorConfigOf fileService envWeb3Timeout) with
    | Except.error e => (st, Except.error e)
    | Except.ok injector =>
      ({ injector := some injector, constructions := st.constructions + 1 },
        injector.verifyCreate2 contract deployerAddress salt constructorArgs create2Address)

/-- `VerificationService.recompile`: same lazy-construction pattern. -/
def recompile
    (createAsync : InjectorConfig Match →
      Except JsError (Injector InjectorInput Match Contract ConstructorArgs Recompiled Bytecode))
    (fileService : FileService Match) (envWeb3Timeout : Option String)
    (st : VerificationService InjectorInput Match Contract ConstructorArgs Recompiled Bytecode)
    (contract : Contract) :
    VerificationService InjectorInput Match Contract ConstructorArgs Recompiled Bytecode ×
      Except JsError Recompiled :=
  match st.injector with
  | some injector => (st, injector.recompile contract)
  | none =>
    match createAsync (injectorConfigOf fileService envWeb3Timeout) with
    | Except.error e => (st, Except.error e)
    | Except.ok injector =>
      ({ injector := some injector, constructions := st.constructions + 1 },
        injector.recompile contract)

/-- `VerificationService.getBytecode`: same lazy-construction pattern. -/
def getBytecode
    (createAsync : InjectorConfig Match →
      Except JsError (Injector InjectorInput Match Contract ConstructorArgs Recompiled Bytecode))
    (fileService : FileService Match) (envWeb3Timeout : Option String)
    (st : VerificationService InjectorInput Match Contract ConstructorArgs Recompiled Bytecode)
    (address chainId : String) :
    VerificationService InjectorInput Match Contract ConstructorArgs Recompiled Bytecode ×
      Except JsError Bytecode :=
  match st.injector with
  | some injector => (st, injector.getBytecode address chainId)
  | none =>
    match createAsync (injectorConfigOf fileService envWeb3Timeout) with
    | Except.error e => (st, Except.error e)
    | Except.ok injector =>
      ({ injector := some injector, constructions := st.constructions + 1 },
        injector.getBytecode address chainId)

end DelegatedOps

/-!
Interleaving model of concurrent first-time delegated calls.

JavaScript async functions run synchronously between `await` suspension
points.  A task running `inject` on an unset `this.injector` therefore
(1) evaluates `if (!this.injector)` and enters `Injector.createAsync`,
suspending at the `await`; (2) when the construction resolves, assigns
`this.injector` and synchronously forwards to that instance.  Engine
instances are identified by the order of their construction (0, 1, ...).
-/

/-- Where one concurrent task is in its run of `inject`: about to run the
truthiness check, suspended inside `await Injector.createAsync`, or done
(recording which engine instance it forwarded to). -/
inductive TaskPhase where
  | start
  | constructing
  | finished (used : Nat)
deriving DecidableEq, Repr

/-- Shared state of the interleaving model: the service's `injector`
field (engine instances named by construction index), the number of
completed constructions, and each task's phase. -/
structure RaceState where
  injector : Option Nat
  constructed : Nat
  tasks : List TaskPhase
deriving DecidableEq, Repr

/-- Run task `i` up to its next suspension point (or to completion):
from `start`, either observe an existing instance and finish with it, or
begin construction; from `constructing`, complete the construction (a
fresh instance), assign `this.injector`, and finish with that instance. -/
def raceStep (s : RaceState) (i : Nat) : RaceState :=
  match s.tasks.get? i with
  | none => s
  | some TaskPhase.start =>
    match s.injector with
    | some inst => { s with tasks := s.tasks.set i (TaskPhase.finished inst) }
    | none => { s with tasks := s.tasks.set i TaskPhase.constructing }
  | some TaskPhase.constructing =>
    { injector := some s.constructed, constructed := s.constructed + 1,
      tasks := s.tasks.set i (TaskPhase.finished s.constructed) }
  | some (TaskPhase.finished _) => s

/-- Run a whole schedule (a list of task indices) from a state. -/
def raceRun (s : RaceState) (sched : List Nat) : RaceState :=
  sched.foldl raceStep s

/-- Concrete compiler output defining only contract `Foo`, with one error
diagnostic; used against target name `Bar`. -/
def sampleOutputFooOnly : CompilerOutput :=
  { contracts := some [("A.sol", [("Foo", { metadata := some "42" })])],
    errors := some [{ severity := "error",
                      formattedMessage := "ParserError: expected semicolon" }] }

/-- Concrete compiler output with one contract whose metadata (` 42 `)
parses after trimming. -/
def sampleOutputGood : CompilerOutput :=
  { contracts := some [("A.sol", [("Foo", { metadata := some " 42 " })])],
    errors := some [] }

/-- Concrete compiler output where `Foo` is present with an empty metadata
string and the diagnostics array is empty. -/
def sampleOutputEmptyMeta : CompilerOutput :=
  { contracts := some [("A.sol", [("Foo", { metadata := some "" })])],
    errors := some [] }

/-- Concrete compiler output with both top-level fields absent. -/
def sampleOutputBare : CompilerOutput :=
  { contracts := none, errors := none }

/-- A toy JSON parser standing in for `JSON.parse` in witnesses: accepts
exactly the document `42`. -/
def sampleParse (s : String) : Option Nat :=
  if s = "42" then some 42 else none

/-- A file store whose lookups always fail. -/
def failingFileService : FileService Nat :=
  { repositoryPath := "/repository"
    findByAddress := fun _ _ => Except.error (JsError.foreign "io failure")
    findAllByAddress := fun _ _ => Except.error (JsError.foreign "io failure") }

/-- A concrete engine instance for witnesses. -/
def sampleInjector : Injector Nat Nat Nat Nat Nat Nat :=
  { inject := fun n => Except.ok (n + 1)
    verifyCreate2 := fun c _ _ _ _ => Except.ok c
    recompile := fun c => Except.ok (c * 2)
    getBytecode := fun _ _ => Except.ok 7 }

/-- A service state already holding `sampleInjector`. -/
def sampleService : VerificationService Nat Nat Nat Nat Nat Nat :=
  { injector := some sampleInjector, constructions := 1 }

/-- A service state with no engine constructed yet. -/
def emptyService : VerificationService Nat Nat Nat Nat Nat Nat :=
  { injector := none, constructions := 0 }

/-- A `createAsync` that succeeds with `sampleInjector`. -/
def okCreateAsync : InjectorConfig Nat → Except JsError (Injector Nat Nat Nat Nat Nat Nat) :=
  fun _ => Except.ok sampleInjector

/-- If every element of `l` satisfying `p` equals `a`, and `a` is a member
satisfying `p`, then `find?` returns `a`. -/
theorem find_eq_of_unique {α : Type} (p : α → Bool) (l : List α) (a : α)
    (hmem : a ∈ l) (hpa : p a = true)
    (hall : ∀ x ∈ l, p x = true → x = a) : l.find? p = some a := by
  induction l with
  | nil => cases hmem
  | cons b t ih =>
    cases hb : p b with
    | true =>
      have hba : b = a := hall b (List.mem_cons_self b t) hb
      subst hba
      simp [List.find?, hb]
    | false =>
      have hat : a ∈ t := by
        rcases List.mem_cons.mp hmem with h | h
        · subst h
          exact Bool.noConfusion (hb.symm.trans hpa)
        · exact h
      have ht := ih hat (fun x hx hpx => hall x (List.mem_cons_of_mem b hx) hpx)
      simp [List.find?, hb, ht]

/-- With pairwise-distinct keys, `lookup` returns the value paired with a
member key. -/
theorem lookup_eq_of_nodup {β : Type} (k : String) (v : β) (l : List (String × β)) :
    (l.map Prod.fst).Nodup → (k, v) ∈ l → l.lookup k = some v := by
  induction l with
  | nil => intro _ h; cases h
  | cons b t ih =>
    intro hnd hmem
    obtain ⟨k1, v1⟩ := b
    rw [List.map_cons, List.nodup_cons] at hnd
    rcases List.mem_cons.mp hmem with h | h
    · injection h with h1 h2
      subst h1
      subst h2
      simp [List.lookup]
    · have hk : (k == k1) = false := by
        apply beq_eq_false_iff_ne.mpr
        intro he
        subst he
        exact hnd.1 (List.mem_map.mpr ⟨(k, v), h, rfl⟩)
      rw [List.lookup, hk]
      exact ih hnd.2 h

/-- The falsy-metadata failure path always produces an error, whatever the
diagnostics field holds. -/
theorem compilationErrorResult_isError {J : Type} (output : CompilerOutput) :
    ∃ e, @compilationErrorResult J output = Except.error e := by
  unfold compilationErrorResult
  cases output.errors with
  | none => exact ⟨_, rfl⟩
  | some errs => exact ⟨_, rfl⟩

/-- C1: the claim states that N concurrent first-time delegated calls
construct exactly one engine instance observed by all callers.  Under the
interleaving semantics of `inject` (JS tasks run synchronously between
`await` points), the schedule in which both tasks evaluate the
`!this.injector` check before either `await Injector.createAsync`
resolves constructs two instances, and the two callers forward to
different instances. -/
theorem c1_race_double_construction :
    (raceRun { injector := none, constructed := 0,
               tasks := [TaskPhase.start, TaskPhase.start] } [0, 1, 0, 1]).constructed = 2 ∧
    (raceRun { injector := none, constructed := 0,
               tasks := [TaskPhase.start, TaskPhase.start] } [0, 1, 0, 1]).tasks =
      [TaskPhase.finished 0, TaskPhase.finished 1] := by
  exact ⟨rfl, rfl⟩

/-- C2 (counterexample): on an output where no file contains `Bar` and the
single error diagnostic reads `ParserError: expected semicolon`, the call
fails with the message `Contract Bar not found in compiler output`, which
is not the newline-joined error-severity diagnostic text. -/
theorem c2_counterexample :
    getMetadataFromJsonInput
        ((fun _ _ => Except.ok sampleOutputFooOnly) :
          String → Unit → Except JsError CompilerOutput)
        sampleParse "v0.5.0" "Bar" () =
      Except.error (JsError.thrown "Contract Bar not found in compiler output") ∧
    "Contract Bar not found in compiler output" ≠
      joinedErrorMessages [{ severity := "error",
                             formattedMessage := "ParserError: expected semicolon" }] := by
  constructor
  · rfl
  · decide

/-- C2 (amended): for every compiler output in which no file path's
contract set contains the target contract name, `getMetadataFromJsonInput`
fails with the error `Contract <name> not found in compiler output`; the
newline-joined error diagnostics are not part of this failure (they are
aggregated only when a path is found but its metadata is missing or
empty). -/
theorem c2_contract_not_found_message {JsonInput J : Type}
    (useCompiler : String → JsonInput → Except JsError CompilerOutput)
    (parseJson : String → Option J)
    (compilerVersion contractName : String) (compilerJson : JsonInput)
    (output : CompilerOutput)
    (hcomp : useCompiler compilerVersion compilerJson = Except.ok output)
    (habs : ∀ cs, output.contracts = some cs →
      ∀ x ∈ cs, x.2.lookup contractName = none) :
    getMetadataFromJsonInput useCompiler parseJson compilerVersion contractName compilerJson =
      Except.error (JsError.thrown
        ("Contract " ++ contractName ++ " not found in compiler output")) := by
  have hfind : findContractPathFromContractName output.contracts contractName = none := by
    unfold findContractPathFromContractName
    cases hc : output.contracts with
    | none => rfl
    | some cs =>
      have hfe : cs.find? (fun pc => (pc.2.lookup contractName).isSome) = none := by
        rw [List.find?_eq_none]
        intro x hx
        simp [habs cs hc x hx]
      simp [hfe]
  simp [getMetadataFromJsonInput, hcomp, getMetadataFromOutput, hfind]

/-- C2 (witness): the amended theorem applied to an output with no
contracts mapping at all. -/
theorem c2_contract_not_found_message_witness :
    getMetadataFromJsonInput
        ((fun _ _ => Except.ok sampleOutputBare) :
          String → Unit → Except JsError CompilerOutput)
        sampleParse "v0.5.0" "Bar" () =
      Except.error (JsError.thrown
        ("Contract " ++ "Bar" ++ " not found in compiler output")) := by
  exact c2_contract_not_found_message _ sampleParse "v0.5.0" "Bar" () sampleOutputBare rfl
    (fun cs hc => nomatch hc)

/-- C3: for every compiler output containing exactly one file path whose
contract set contains the target contract name, with a non-empty metadata
string that `JSON.parse` accepts after trimming, `getMetadataFromJsonInput`
returns the value parsed from the trimmed metadata string. -/
theorem c3_unique_contract_metadata_parsed {JsonInput J : Type}
    (useCompiler : String → JsonInput → Except JsError CompilerOutput)
    (parseJson : String → Option J)
    (compilerVersion contractName : String) (compilerJson : JsonInput)
    (output : CompilerOutput)
    (cs : List (String × List (String × Artifact)))
    (p : String) (m : List (String × Artifact)) (artifact : Artifact) (s : String) (j : J)
    (hcomp : useCompiler compilerVersion compilerJson = Except.ok output)
    (hcs : output.contracts = some cs)
    (hnd : (cs.map Prod.fst).Nodup)
    (hmem : (p, m) ∈ cs)
    (honly : ∀ x ∈ cs, (x.2.lookup contractName).isSome = true → x = (p, m))
    (hart : m.lookup contractName = some artifact)
    (hmeta : artifact.metadata = some s)
    (hne : s ≠ "")
    (hparse : parseJson (jsTrim s) = some j) :
    getMetadataFromJsonInput useCompiler parseJson compilerVersion contractName compilerJson =
      Except.ok j := by
  have hfe : cs.find? (fun pc => (pc.2.lookup contractName).isSome) = some (p, m) :=
    find_eq_of_unique _ cs (p, m) hmem (by simp [hart]) honly
  have hfind : findContractPathFromContractName output.contracts contractName = some p := by
    simp [findContractPathFromContractName, hcs, hfe]
  have hlook : cs.lookup p = some m := lookup_eq_of_nodup p m cs hnd hmem
  have hartifact : contractArtifact output.contracts p contractName = some artifact := by
    simp [contractArtifact, hcs, hlook, hart]
  simp [getMetadataFromJsonInput, hcomp, getMetadataFromOutput, hfind, hartifact,
    hmeta, hne, hparse]

/-- C3 (witness): concrete output `A.sol -> Foo -> metadata " 42 "`,
parsed by `sampleParse` to `42`. -/
theorem c3_unique_contract_metadata_parsed_witness :
    getMetadataFromJsonInput
        ((fun _ _ => Except.ok sampleOutputGood) :
          String → Unit → Except JsError CompilerOutput)
        sampleParse "v0.5.0" "Foo" () = Except.ok 42 := by
  exact c3_unique_contract_metadata_parsed _ sampleParse "v0.5.0" "Foo" ()
    sampleOutputGood [("A.sol", [("Foo", { metadata := some " 42 " })])]
    "A.sol" [("Foo", { metadata := some " 42 " })] { metadata := some " 42 " } " 42 " 42
    rfl rfl (by simp) (by simp)
    (by intro x hx _; simp at hx; exact hx)
    rfl rfl (by decide) rfl

/-- C4: when the repository store fails on the lookups, `findByAddress`
and `findAllByAddress` swallow the failure: each returns the empty match
list together with one informational log record carrying the address; as
total functions into `List Match × List LogEntry` they raise nothing to
the caller. -/
theorem c4_lookup_failures_swallowed {Match : Type} (fileService : FileService Match)
    (address chain : String) (e1 e2 : JsError)
    (h1 : fileService.findByAddress address chain = Except.error e1)
    (h2 : fileService.findAllByAddress address chain = Except.error e2) :
    findByAddress fileService address chain =
      ([], [{ loc := "[POST:VERIFICATION_BY_ADDRESS_FAILED]", address := address,
              msg := "Could not find file in repository" }]) ∧
    findAllByAddress fileService address chain =
      ([], [{ loc := "[POST:VERIFICATION_BY_ADDRESS_FAILED]", address := address,
              msg := "Could not find file in repository" }]) := by
  constructor
  · simp [findByAddress, h1]
  · simp [findAllByAddress, h2]

/-- C4 (witness): the always-failing store at address `0xabc`. -/
theorem c4_lookup_failures_swallowed_witness :
    findByAddress failingFileService "0xabc" "1" =
      ([], [{ loc := "[POST:VERIFICATION_BY_ADDRESS_FAILED]", address := "0xabc",
              msg := "Could not find file in repository" }]) ∧
    findAllByAddress failingFileService "0xabc" "1" =
      ([], [{ loc := "[POST:VERIFICATION_BY_ADDRESS_FAILED]", address := "0xabc",
              msg := "Could not find file in repository" }]) := by
  exact c4_lookup_failures_swallowed failingFileService "0xabc" "1"
    (JsError.foreign "io failure") (JsError.foreign "io failure") rfl rfl

/-- C5: a failure of the compiler-invocation collaborator itself
propagates out of `getMetadataFromJsonInput` unchanged: the very same
error value, not caught, wrapped, or converted. -/
theorem c5_invocation_failure_propagates {JsonInput J : Type}
    (useCompiler : String → JsonInput → Except JsError CompilerOutput)
    (parseJson : String → Option J)
    (compilerVersion contractName : String) (compilerJson : JsonInput) (e : JsError)
    (h : useCompiler compilerVersion compilerJson = Except.error e) :
    getMetadataFromJsonInput useCompiler parseJson compilerVersion contractName compilerJson =
      Except.error e := by
  simp [getMetadataFromJsonInput, h]

/-- C5 (witness): an unknown-compiler-version failure propagates as-is. -/
theorem c5_invocation_failure_propagates_witness :
    getMetadataFromJsonInput
        ((fun _ _ => Except.error (JsError.foreign "unknown compiler version")) :
          String → Unit → Except JsError CompilerOutput)
        sampleParse "v9.9.9" "Foo" () =
      Except.error (JsError.foreign "unknown compiler version") := by
  exact c5_invocation_failure_propagates _ sampleParse "v9.9.9" "Foo" ()
    (JsError.foreign "unknown compiler version") rfl

/-- C6: once the engine is constructed (the service state holds it), each
of the four delegated operations leaves the state unchanged (same stored
instance, no additional construction counted) and forwards to exactly
that stored instance. -/
theorem c6_engine_reuse_idempotent {II M C A R B : Type}
    (createAsync : InjectorConfig M → Except JsError (Injector II M C A R B))
    (fileService : FileService M) (envWeb3Timeout : Option String)
    (st : VerificationService II M C A R B) (inj : Injector II M C A R B)
    (input : II) (contract : C) (deployerAddress salt : String)
    (constructorArgs : A) (create2Address address chainId : String)
    (h : st.injector = some inj) :
    inject createAsync fileService envWeb3Timeout st input = (st, inj.inject input) ∧
    verifyCreate2 createAsync fileService envWeb3Timeout st contract deployerAddress salt
        constructorArgs create2Address =
      (st, inj.verifyCreate2 contract deployerAddress salt constructorArgs create2Address) ∧
    recompile createAsync fileService envWeb3Timeout st contract =
      (st, inj.recompile contract) ∧
    getBytecode createAsync fileService envWeb3Timeout st address chainId =
      (st, inj.getBytecode address chainId) := by
  refine ⟨?_, ?_, ?_, ?_⟩ <;> simp [inject, verifyCreate2, recompile, getBytecode, h]

/-- C6 (witness): a state already holding `sampleInjector`. -/
theorem c6_engine_reuse_idempotent_witness :
    inject okCreateAsync failingFileService none sampleService 5 =
      (sampleService, sampleInjector.inject 5) ∧
    verifyCreate2 okCreateAsync failingFileService none sampleService 3 "0xd" "0xs" 9 "0xc" =
      (sampleService, sampleInjector.verifyCreate2 3 "0xd" "0xs" 9 "0xc") ∧
    recompile okCreateAsync failingFileService none sampleService 3 =
      (sampleService, sampleInjector.recompile 3) ∧
    getBytecode okCreateAsync failingFileService none sampleService "0xa" "1" =
      (sampleService, sampleInjector.getBytecode "0xa" "1") := by
  exact c6_engine_reuse_idempotent okCreateAsync failingFileService none sampleService
    sampleInjector 5 3 "0xd" "0xs" 9 "0xc" "0xa" "1" rfl

/-- C7: for each of the four delegated operations, once the engine is
resolved (already stored, or freshly and successfully constructed), the
call's result is exactly the engine's result on the unchanged arguments —
engine failures included, since the forwarded value is the engine's whole
`Except` result. -/
theorem c7_delegated_ops_forward {II M C A R B : Type}
    (createAsync : InjectorConfig M → Except JsError (Injector II M C A R B))
    (fileService : FileService M) (envWeb3Timeout : Option String)
    (st : VerificationService II M C A R B) (inj : Injector II M C A R B)
    (input : II) (contract : C) (deployerAddress salt : String)
    (constructorArgs : A) (create2Address address chainId : String)
    (hready : st.injector = some inj ∨
      (st.injector = none ∧
        createAsync (injectorConfigOf fileService envWeb3Timeout) = Except.ok inj)) :
    (inject createAsync fileService envWeb3Timeout st input).2 = inj.inject input ∧
    (verifyCreate2 createAsync fileService envWeb3Timeout st contract deployerAddress salt
        constructorArgs create2Address).2 =
      inj.verifyCreate2 contract deployerAddress salt constructorArgs create2Address ∧
    (recompile createAsync fileService envWeb3Timeout st contract).2 =
      inj.recompile contract ∧
    (getBytecode createAsync fileService envWeb3Timeout st address chainId).2 =
      inj.getBytecode address chainId := by
  rcases hready with h | ⟨h, hc⟩
  · refine ⟨?_, ?_, ?_, ?_⟩ <;> simp [inject, verifyCreate2, recompile, getBytecode, h]
  · refine ⟨?_, ?_, ?_, ?_⟩ <;> simp [inject, verifyCreate2, recompile, getBytecode, h, hc]

/-- C7 (witness): first-time calls on an empty state with a succeeding
construction forward to the constructed instance. -/
theorem c7_delegated_ops_forward_witness :
    (inject okCreateAsync failingFileService none emptyService 5).2 =
      sampleInjector.inject 5 ∧
    (verifyCreate2 okCreateAsync failingFileService none emptyService 3 "0xd" "0xs" 9
        "0xc").2 =
      sampleInjector.verifyCreate2 3 "0xd" "0xs" 9 "0xc" ∧
    (recompile okCreateAsync failingFileService none emptyService 3).2 =
      sampleInjector.recompile 3 ∧
    (getBytecode okCreateAsync failingFileService none emptyService "0xa" "1").2 =
      sampleInjector.getBytecode "0xa" "1" := by
  exact c7_delegated_ops_forward okCreateAsync failingFileService none emptyService
    sampleInjector 5 3 "0xd" "0xs" 9 "0xc" "0xa" "1" (Or.inr ⟨rfl, rfl⟩)

/-- C8: when the located contract's metadata is missing or empty and the
error-severity filter of the diagnostics is empty, the call still fails,
with the aggregated message text empty (the thrown message is exactly the
`Compiler error:` prefix); it never silently succeeds. -/
theorem c8_empty_diagnostics_still_error {JsonInput J : Type}
    (useCompiler : String → JsonInput → Except JsError CompilerOutput)
    (parseJson : String → Option J)
    (compilerVersion contractName : String) (compilerJson : JsonInput)
    (output : CompilerOutput) (contractPath : String) (artifact : Artifact)
    (errs : List Diagnostic)
    (hcomp : useCompiler compilerVersion compilerJson = Except.ok output)
    (hfind : findContractPathFromContractName output.contracts contractName =
      some contractPath)
    (hart : contractArtifact output.contracts contractPath contractName = some artifact)
    (hmeta : artifact.metadata = none ∨ artifact.metadata = some "")
    (herrs : output.errors = some errs)
    (hfilter : errs.filter (fun e => e.severity == "error") = []) :
    getMetadataFromJsonInput useCompiler parseJson compilerVersion contractName compilerJson =
      Except.error (JsError.thrown "Compiler error:\n ") := by
  have hjoined : joinedErrorMessages errs = "" := by
    unfold joinedErrorMessages
    rw [hfilter]
    rfl
  have hres : @compilationErrorResult J output =
      Except.error (JsError.thrown "Compiler error:\n ") := by
    unfold compilationErrorResult
    rw [herrs]
    simp [hjoined]
  rcases hmeta with hm | hm <;>
    simp [getMetadataFromJsonInput, hcomp, getMetadataFromOutput, hfind, hart, hm, hres]

/-- C8 (witness): `Foo` present with empty metadata string, empty
diagnostics array. -/
theorem c8_empty_diagnostics_still_error_witness :
    getMetadataFromJsonInput
        ((fun _ _ => Except.ok sampleOutputEmptyMeta) :
          String → Unit → Except JsError CompilerOutput)
        sampleParse "v0.5.0" "Foo" () =
      Except.error (JsError.thrown "Compiler error:\n ") := by
  exact c8_empty_diagnostics_still_error _ sampleParse "v0.5.0" "Foo" ()
    sampleOutputEmptyMeta "A.sol" { metadata := some "" } []
    rfl rfl rfl (Or.inr rfl) rfl rfl

/-- C9: the environment value `"0"` parses to the number 0, which the
falsiness coercion `|| undefined` drops, so no timeout is passed to the
engine; while `"15x"` parses (by numeric prefix) to the timeout 15. -/
theorem c9_web3_timeout_falsiness :
    web3timeoutFromEnv (some "0") = none ∧ web3timeoutFromEnv (some "15x") = some 15 := by
  constructor
  · rfl
  · rfl

/-- C10: for every compiler output holding no metadata string for the
target contract with non-whitespace content (absent mapping, absent
artifact, absent or empty or whitespace-only metadata, diagnostics present
or absent), `getMetadataFromJsonInput` produces an error — it never
returns a metadata document.  `parseJson "" = none` records that
`JSON.parse` rejects the empty document. -/
theorem c10_no_metadata_never_returns {JsonInput J : Type}
    (useCompiler : String → JsonInput → Except JsError CompilerOutput)
    (parseJson : String → Option J)
    (compilerVersion contractName : String) (compilerJson : JsonInput)
    (output : CompilerOutput)
    (hcomp : useCompiler compilerVersion compilerJson = Except.ok output)
    (hjson : parseJson "" = none)
    (hws : ∀ contractPath artifact s,
      contractArtifact output.contracts contractPath contractName = some artifact →
      artifact.metadata = some s → jsTrim s = "") :
    ∃ e, getMetadataFromJsonInput useCompiler parseJson compilerVersion contractName
      compilerJson = Except.error e := by
  have hcore : ∃ e, @getMetadataFromOutput J parseJson contractName output =
      Except.error e := by
    cases hfind : findContractPathFromContractName output.contracts contractName with
    | none =>
      exact ⟨JsError.thrown ("Contract " ++ contractName ++ " not found in compiler output"),
        by simp [getMetadataFromOutput, hfind]⟩
    | some contractPath =>
      cases hart : contractArtifact output.contracts contractPath contractName with
      | none =>
        obtain ⟨e, he⟩ := @compilationErrorResult_isError J output
        exact ⟨e, by simp [getMetadataFromOutput, hfind, hart, he]⟩
      | some artifact =>
        cases hmeta : artifact.metadata with
        | none =>
          obtain ⟨e, he⟩ := @compilationErrorResult_isError J output
          exact ⟨e, by simp [getMetadataFromOutput, hfind, hart, hmeta, he]⟩
        | some s =>
          by_cases hse : s = ""
          · obtain ⟨e, he⟩ := @compilationErrorResult_isError J output
            exact ⟨e, by simp [getMetadataFromOutput, hfind, hart, hmeta, hse, he]⟩
          · have htrim := hws contractPath artifact s hart hmeta
            exact ⟨JsError.badJson "Unexpected token in JSON",
              by simp [getMetadataFromOutput, hfind, hart, hmeta, hse, htrim, hjson]⟩
  unfold getMetadataFromJsonInput
  rw [hcomp]
  exact hcore

/-- C10 (witness): the bare output (no contracts mapping, no diagnostics
array). -/
theorem c10_no_metadata_never_returns_witness :
    ∃ e, getMetadataFromJsonInput
        ((fun _ _ => Except.ok sampleOutputBare) :
          String → Unit → Except JsError CompilerOutput)
        sampleParse "v0.5.0" "Foo" () = Except.error e := by
  exact c10_no_metadata_never_returns _ sampleParse "v0.5.0" "Foo" () sampleOutputBare
    rfl rfl (fun contractPath artifact s h _ => nomatch h)

end Sourcify
